import Mathlib

/-!
Verification development for the `tick` repository.

Covered here: the HawkesEM discretization / grid-consistency subsystem and
the kernel query surface (spec §3, §4.1, §4.4, §8; the learner implementation
itself is not under src, only its tests `tick/inference/tests/hawkes_em_test.py`,
so those parts are modelled from the spec), and the `SVRG` python wrapper
(`tick/optim/solver/svrg.py`), whose policy setters/getters are embedded
directly from the source.

Timestamps, supports and bin widths are embedded as exact rationals.
-/

/-- Modelled from the spec: the Discretization Manager's canonical triple
(support, bin count, bin width) of §3/§4.1; the C++ learner holding it is
missing from src (only `hawkes_em_test.py` exercises it). Field names follow
the learner attributes used by the tests: `kernel_support`, `kernel_size`,
`kernel_dt`. -/
@[ext]
structure Discretization where
  kernel_support : ℚ
  kernel_size : ℕ
  kernel_dt : ℚ
deriving DecidableEq

/-- Modelled from the spec: configuring with support and bin count recomputes
step = support / bin_count (§3). -/
def mkDiscretization (support : ℚ) (size : ℕ) : Discretization :=
  { kernel_support := support, kernel_size := size, kernel_dt := support / size }

/-- Modelled from the spec: setting the support keeps the bin count and
re-derives the step (§4.1). -/
def setKernelSupport (d : Discretization) (s : ℚ) : Discretization :=
  { kernel_support := s, kernel_size := d.kernel_size,
    kernel_dt := s / d.kernel_size }

/-- Modelled from the spec: setting the bin count keeps the support and
re-derives the step (§4.1). -/
def setKernelSize (d : Discretization) (n : ℕ) : Discretization :=
  { kernel_support := d.kernel_support, kernel_size := n,
    kernel_dt := d.kernel_support / n }

/-- Modelled from the spec: setting the step computes
bin_count = ceil(support / step) and then recomputes the actual
step = support / bin_count (§3, §8). -/
def setKernelDt (d : Discretization) (st : ℚ) : Discretization :=
  { kernel_support := d.kernel_support,
    kernel_size := (⌈d.kernel_support / st⌉).toNat,
    kernel_dt := d.kernel_support / ((⌈d.kernel_support / st⌉).toNat : ℚ) }

/-- Modelled from the spec: the exposed grid is the ordered sequence of
(bin_count + 1) equally spaced edges 0, step, 2·step, …, support (§3, §4.1). -/
def kernel_discretization (d : Discretization) : List ℚ :=
  (List.range (d.kernel_size + 1)).map (fun i : ℕ => (i : ℚ) * d.kernel_dt)

/-- The grid-consistency invariant of §3: the step is the derived quantity
support / bin_count. -/
def DiscInv (d : Discretization) : Prop :=
  d.kernel_dt = d.kernel_support / (d.kernel_size : ℚ)

/-- Modelled from the spec: the published state of a fitted HawkesEM
estimator — node count, discretization grid, and the dense kernel tensor
(entry (i, j, b) read as a total function; §3). -/
structure HawkesEM where
  n_nodes : ℕ
  disc : Discretization
  kernel : ℕ → ℕ → ℕ → ℚ

/-- Modelled from the spec: `bin(Δ)` maps a non-negative delay to its grid
bin index (§4.3), i.e. the floor of Δ / step. -/
def binIdx (d : Discretization) (t : ℚ) : ℕ :=
  (⌊t / d.kernel_dt⌋).toNat

/-- Modelled from the spec: pointwise kernel evaluation —
kernel[i][j][bin(t)] inside the support, else 0 (§4.4). The lower boundary
is strict: the src test `hawkes_em_test.py` lines 58-62 expects value
0.0000 at t = 0 while the bin-0 entry kernel[1][0][0] is 0.80077, so the
program returns 0 at t = 0 and the effective domain is 0 < t < support. -/
def get_kernel_values (h : HawkesEM) (i j : ℕ) (t : ℚ) : ℚ :=
  if 0 < t ∧ t < h.disc.kernel_support then h.kernel i j (binIdx h.disc t)
  else 0

/-- Modelled from the spec: the kernel norm of pair (i, j) —
Σ_b kernel[i][j][b] · step, the discrete integral of the kernel (§4.4). -/
def get_kernel_norms (h : HawkesEM) (i j : ℕ) : ℚ :=
  ∑ b ∈ Finset.range h.disc.kernel_size, h.kernel i j b * h.disc.kernel_dt

/-- The discrete L1-integral of the piecewise-constant kernel, written through
the pointwise evaluator at the bin centers:
Σ_b value(i, j, (b + 1/2)·step) · step — the right-hand side of the §8
property relating norms to values ("bin_center_or_edge"); the center is the
sampling point at which the property holds of the program, since at the left
edge of bin 0 (t = 0) the program returns 0. -/
def kernelDiscreteIntegral (h : HawkesEM) (i j : ℕ) : ℚ :=
  ∑ b ∈ Finset.range h.disc.kernel_size,
    get_kernel_values h i j (((b : ℚ) + 1/2) * h.disc.kernel_dt) *
      h.disc.kernel_dt

/-- Modelled from the spec: per-pair support query — an n_nodes × n_nodes
matrix every entry of which is the global support (§4.4, §6). -/
def get_kernel_supports (h : HawkesEM) : List (List ℚ) :=
  (List.range h.n_nodes).map (fun _ =>
    (List.range h.n_nodes).map (fun _ => h.disc.kernel_support))

/-- The C++ enum of variance reduction methods wrapped by `_SVRG`
(`svrg.py` lines 10-12); the three codes are distinct enum values. -/
inductive VarianceReductionMethod
  | Last
  | Average
  | Random
deriving DecidableEq

/-- The C++ enum of delayed updates methods wrapped by `_SVRG`
(`svrg.py` lines 16-17). -/
inductive DelayedUpdatesMethod
  | Exact
  | Proba
deriving DecidableEq

/-- `variance_reduction_methods_mapper` of `svrg.py` (lines 9-13), as the
ordered association list of its items. -/
def variance_reduction_methods_mapper : List (String × VarianceReductionMethod) :=
  [("last", VarianceReductionMethod.Last),
   ("avg", VarianceReductionMethod.Average),
   ("rand", VarianceReductionMethod.Random)]

/-- `delayed_updates_methods_mapper` of `svrg.py` (lines 15-18). -/
def delayed_updates_methods_mapper : List (String × DelayedUpdatesMethod) :=
  [("exact", DelayedUpdatesMethod.Exact),
   ("proba", DelayedUpdatesMethod.Proba)]

/-- Key lookup in `variance_reduction_methods_mapper` (python dict access,
`val not in mapper` / `mapper[val]`). -/
def vrLookup (v : String) : Option VarianceReductionMethod :=
  (variance_reduction_methods_mapper.find? (fun p => p.1 == v)).map (fun p => p.2)

/-- Key lookup in `delayed_updates_methods_mapper`. -/
def duLookup (v : String) : Option DelayedUpdatesMethod :=
  (delayed_updates_methods_mapper.find? (fun p => p.1 == v)).map (fun p => p.2)

/-- The part of a `Model` the SVRG wrapper inspects: `model._model.is_sparse()`
(`svrg.py` lines 131, 167). -/
structure ModelInfo where
  is_sparse : Bool
deriving DecidableEq

/-- The state of an `SVRG` solver visible to the claims: the optional model
and the two policy codes held by the wrapped C++ solver. -/
structure SVRG where
  model : Option ModelInfo
  vr : VarianceReductionMethod
  du : DelayedUpdatesMethod
deriving DecidableEq

/-- Whether a python call raised (an `Except.error` models a raised
`ValueError`). -/
def isError {α β : Type} : Except α β → Bool
  | Except.error _ => true
  | Except.ok _ => false

/-- The `variance_reduction` property getter (`svrg.py` lines 111-114):
first mapper key whose code equals the solver's stored code, else `None`. -/
def get_variance_reduction (s : SVRG) : Option String :=
  (variance_reduction_methods_mapper.find? (fun p => p.2 == s.vr)).map
    (fun p => p.1)

/-- The `delayed_updates` property getter (`svrg.py` lines 116-119). -/
def get_delayed_updates (s : SVRG) : Option String :=
  (delayed_updates_methods_mapper.find? (fun p => p.2 == s.du)).map
    (fun p => p.1)

/-- The `variance_reduction` property setter (`svrg.py` lines 121-136):
`ValueError` when the key is unknown; `ValueError` when a model is set,
the key is "avg" and the model is sparse; otherwise store the mapped code. -/
def set_variance_reduction (s : SVRG) (val : String) : Except String SVRG :=
  match vrLookup val with
  | none => Except.error "variance_reduction should be one of last, avg, rand"
  | some c =>
    match s.model with
    | some m =>
      if val = "avg" ∧ m.is_sparse = true then
        Except.error
          "avg variance reduction cannot be used with delayed updates for sparse data"
      else Except.ok { s with vr := c }
    | none => Except.ok { s with vr := c }

/-- The `delayed_updates` property setter (`svrg.py` lines 138-148):
`ValueError` when the key is unknown, otherwise store the mapped code. -/
def set_delayed_updates (s : SVRG) (val : String) : Except String SVRG :=
  match duLookup val with
  | none => Except.error "delayed_updates should be one of exact, proba"
  | some c => Except.ok { s with du := c }

/-- `SVRG.set_model` (`svrg.py` lines 150-173): `ValueError` when the current
variance reduction policy reads "avg" and the supplied model is sparse;
otherwise install the model and return the solver. -/
def set_model (s : SVRG) (m : ModelInfo) : Except String SVRG :=
  if get_variance_reduction s = some "avg" ∧ m.is_sparse = true then
    Except.error "avg variance reduction cannot be used with sparse data"
  else Except.ok { s with model := some m }

/-- A concrete fitted-state sample used by witnesses: 2 nodes, the grid of the
regression test (support 3, 3 bins, step 1), and a small explicit tensor. -/
def demoEM : HawkesEM :=
  { n_nodes := 2,
    disc := { kernel_support := 3, kernel_size := 3, kernel_dt := 1 },
    kernel := fun i j b => ((i + 2 * j + b : ℕ) : ℚ) }

/-- The discretization of `test_hawkes_em_kernel_dt`: support 4, 10 bins,
step 0.4. -/
def disc0 : Discretization :=
  { kernel_support := 4, kernel_size := 10, kernel_dt := 2/5 }

/-- A solver holding a sparse model, variance reduction "last". -/
def sparseSolver : SVRG :=
  { model := some { is_sparse := true },
    vr := VarianceReductionMethod.Last,
    du := DelayedUpdatesMethod.Exact }

/-- A freshly constructed solver: no model set yet. -/
def freshSolver : SVRG :=
  { model := none,
    vr := VarianceReductionMethod.Last,
    du := DelayedUpdatesMethod.Exact }

/-- A solver with variance reduction "avg" and no model. -/
def avgSolver : SVRG :=
  { model := none,
    vr := VarianceReductionMethod.Average,
    du := DelayedUpdatesMethod.Exact }

/-- C2 counterexample: at the concrete estimator `demoEM` the query time
t = 0 satisfies 0 ≤ t < support, yet the pointwise evaluation returns 0
while the bin-0 tensor entry kernel[1][0][bin(0)] is 1 — the program
(per `hawkes_em_test.py` lines 58-62) returns 0 at t = 0, not the bin-0
entry. -/
theorem C2_counterexample :
    (0:ℚ) ≤ 0 ∧ (0:ℚ) < demoEM.disc.kernel_support ∧
    get_kernel_values demoEM 1 0 0 = 0 ∧
    demoEM.kernel 1 0 (binIdx demoEM.disc 0) = 1 ∧
    get_kernel_values demoEM 1 0 0 ≠
      demoEM.kernel 1 0 (binIdx demoEM.disc 0) := by
  have hv : get_kernel_values demoEM 1 0 0 = 0 := by
    simp [get_kernel_values]
  have hb : binIdx demoEM.disc 0 = 0 := by
    simp [binIdx]
  have hk : demoEM.kernel 1 0 (binIdx demoEM.disc 0) = 1 := by
    rw [hb]
    norm_num [demoEM]
  refine ⟨le_refl 0, by norm_num [demoEM], hv, hk, ?_⟩
  rw [hv, hk]
  norm_num

/-- C2 (amended): for every fitted estimator, node pair (i, j) and query
time t, the pointwise kernel evaluation returns kernel[i][j][bin(t)]
whenever 0 < t < support, and returns exactly 0 whenever t ≤ 0 or
t ≥ support. -/
theorem C2_kernel_values_piecewise (h : HawkesEM) (i j : ℕ) (t : ℚ) :
    (0 < t → t < h.disc.kernel_support →
      get_kernel_values h i j t = h.kernel i j (binIdx h.disc t)) ∧
    (t ≤ 0 → get_kernel_values h i j t = 0) ∧
    (h.disc.kernel_support ≤ t → get_kernel_values h i j t = 0) := by
  refine ⟨fun h1 h2 => ?_, fun h1 => ?_, fun h1 => ?_⟩
  · simp only [get_kernel_values]
    rw [if_pos ⟨h1, h2⟩]
  · simp only [get_kernel_values]
    rw [if_neg (fun hc => absurd hc.1 (not_lt.mpr h1))]
  · simp only [get_kernel_values]
    rw [if_neg (fun hc => absurd hc.2 (not_lt.mpr h1))]

/-- Witness for C2 at the concrete estimator `demoEM` (support 3, step 1):
strictly inside the support the value is the tensor entry of the bin, and
it is 0 at t = 0, at a negative t and at t past the support. -/
theorem C2_witness :
    (0:ℚ) < 3/2 ∧ (3/2 : ℚ) < demoEM.disc.kernel_support ∧
    get_kernel_values demoEM 1 0 (3/2) = 2 ∧
    get_kernel_values demoEM 1 0 0 = 0 ∧
    get_kernel_values demoEM 1 0 (-1) = 0 ∧
    get_kernel_values demoEM 1 0 5 = 0 :=
  ⟨by norm_num, by norm_num [demoEM],
   ((C2_kernel_values_piecewise demoEM 1 0 (3/2)).1 (by norm_num)
     (by norm_num [demoEM])).trans (by
      have hb : binIdx demoEM.disc (3/2) = 1 := by
        have hf : ⌊(3/2 : ℚ) / demoEM.disc.kernel_dt⌋ = 1 := by
          rw [Int.floor_eq_iff]
          norm_num [demoEM]
        simp [binIdx, hf]
      rw [hb]
      norm_num [demoEM]),
   (C2_kernel_values_piecewise demoEM 1 0 0).2.1 (le_refl 0),
   (C2_kernel_values_piecewise demoEM 1 0 (-1)).2.1 (by norm_num),
   (C2_kernel_values_piecewise demoEM 1 0 5).2.2 (by norm_num [demoEM])⟩

/-- C5: for every positive requested step, setting the step recomputes
size = ceil(support / step) and realizes step = support / size; with
support 4 (the state of `test_hawkes_em_kernel_dt`) a requested step of
0.199 yields size 21 and realized step 4/21. -/
theorem C5_kernel_dt_recompute (d : Discretization) (st : ℚ)
    (h1 : 0 < st) (h2 : 0 < d.kernel_support) :
    (setKernelDt d st).kernel_size = (⌈d.kernel_support / st⌉).toNat ∧
    (setKernelDt d st).kernel_dt =
      d.kernel_support / (((⌈d.kernel_support / st⌉).toNat : ℕ) : ℚ) ∧
    (setKernelDt disc0 (199/1000)).kernel_size = 21 ∧
    (setKernelDt disc0 (199/1000)).kernel_dt = 4/21 := by
  have hc : ⌈disc0.kernel_support / (199/1000 : ℚ)⌉ = 21 := by
    rw [Int.ceil_eq_iff]
    norm_num [disc0]
  refine ⟨rfl, rfl, ?_, ?_⟩
  · show (⌈disc0.kernel_support / (199/1000 : ℚ)⌉).toNat = 21
    rw [hc]
    rfl
  · show disc0.kernel_support /
      (((⌈disc0.kernel_support / (199/1000 : ℚ)⌉).toNat : ℕ) : ℚ) = 4/21
    rw [hc]
    have ht : Int.toNat 21 = 21 := rfl
    rw [ht]
    norm_num [disc0]

/-- Witness for C5: hypotheses hold at the concrete requested step 0.199 on
the support-4 discretization, and the recomputation is as claimed. -/
theorem C5_witness :
    (0:ℚ) < 199/1000 ∧ (0:ℚ) < disc0.kernel_support ∧
    (setKernelDt disc0 (199/1000)).kernel_size = 21 ∧
    (setKernelDt disc0 (199/1000)).kernel_dt = 4/21 :=
  ⟨by norm_num, by norm_num [disc0],
   (C5_kernel_dt_recompute disc0 (199/1000) (by norm_num)
     (by norm_num [disc0])).2.2.1,
   (C5_kernel_dt_recompute disc0 (199/1000) (by norm_num)
     (by norm_num [disc0])).2.2.2⟩

/-- C7: mutating the support or the bin count leaves the other of those two
fields unchanged (re-deriving only the step), and a step mutation leaves the
support unchanged — only the step mutation may change the bin count. -/
theorem C7_frame_effects (d : Discretization) (s st : ℚ) (n : ℕ) :
    (setKernelSupport d s).kernel_support = s ∧
    (setKernelSupport d s).kernel_size = d.kernel_size ∧
    (setKernelSize d n).kernel_size = n ∧
    (setKernelSize d n).kernel_support = d.kernel_support ∧
    (setKernelDt d st).kernel_support = d.kernel_support :=
  ⟨rfl, rfl, rfl, rfl, rfl⟩

/-- C3: for every fitted estimator with a consistent positive grid, the
kernel norm of pair (i, j) equals the discrete L1-integral of the
piecewise-constant kernel, i.e. the sum over bins of the pointwise value at
the bin center times the bin width. -/
theorem C3_norms_eq_integral (h : HawkesEM) (i j : ℕ)
    (hinv : DiscInv h.disc) (hs : 0 < h.disc.kernel_support)
    (hn : 0 < h.disc.kernel_size) :
    get_kernel_norms h i j = kernelDiscreteIntegral h i j := by
  unfold get_kernel_norms kernelDiscreteIntegral
  refine Finset.sum_congr rfl (fun b hb => ?_)
  rw [Finset.mem_range] at hb
  have hsz : (0:ℚ) < (h.disc.kernel_size : ℚ) := by exact_mod_cast hn
  have hdt : 0 < h.disc.kernel_dt := by
    rw [hinv]
    exact div_pos hs hsz
  have hc0 : (0:ℚ) < (b:ℚ) + 1/2 := by positivity
  have h0 : (0:ℚ) < ((b:ℚ) + 1/2) * h.disc.kernel_dt := mul_pos hc0 hdt
  have hlt : ((b:ℚ) + 1/2) * h.disc.kernel_dt < h.disc.kernel_support := by
    have hb1 : b + 1 ≤ h.disc.kernel_size := hb
    have hb2 : (b:ℚ) + 1 ≤ (h.disc.kernel_size : ℚ) := by exact_mod_cast hb1
    have hb3 : (b:ℚ) + 1/2 < (h.disc.kernel_size : ℚ) := by linarith
    calc ((b:ℚ) + 1/2) * h.disc.kernel_dt
        < (h.disc.kernel_size : ℚ) * h.disc.kernel_dt :=
          mul_lt_mul_of_pos_right hb3 hdt
      _ = h.disc.kernel_support := by
          rw [hinv, mul_div_cancel₀ _ (ne_of_gt hsz)]
  have hbin : binIdx h.disc (((b:ℚ) + 1/2) * h.disc.kernel_dt) = b := by
    unfold binIdx
    rw [mul_div_assoc, div_self (ne_of_gt hdt), mul_one]
    have hf : ⌊(b:ℚ) + 1/2⌋ = (b:ℤ) := by
      rw [Int.floor_eq_iff]
      constructor
      · push_cast
        linarith
      · push_cast
        linarith
    rw [hf, Int.toNat_natCast]
  simp only [get_kernel_values]
  rw [if_pos ⟨h0, hlt⟩, hbin]

/-- Witness for C3 at the concrete estimator `demoEM`: the grid is
consistent and positive, and the norm of pair (0, 0) equals the discrete
integral. -/
theorem C3_witness :
    DiscInv demoEM.disc ∧ (0:ℚ) < demoEM.disc.kernel_support ∧
    0 < demoEM.disc.kernel_size ∧
    get_kernel_norms demoEM 0 0 = kernelDiscreteIntegral demoEM 0 0 := by
  have h1 : DiscInv demoEM.disc := by
    unfold DiscInv
    norm_num [demoEM]
  exact ⟨h1, by norm_num [demoEM], by norm_num [demoEM],
    C3_norms_eq_integral demoEM 0 0 h1 (by norm_num [demoEM])
      (by norm_num [demoEM])⟩

/-- C8: for every fitted estimator, the per-pair support query returns an
n_nodes × n_nodes matrix whose every entry is the single global support of
the discretization. -/
theorem C8_supports_uniform (h : HawkesEM) :
    (get_kernel_supports h).length = h.n_nodes ∧
    ∀ row ∈ get_kernel_supports h,
      row.length = h.n_nodes ∧ ∀ x ∈ row, x = h.disc.kernel_support := by
  constructor
  · simp [get_kernel_supports]
  · intro row hrow
    simp only [get_kernel_supports, List.mem_map] at hrow
    obtain ⟨a, -, rfl⟩ := hrow
    constructor
    · simp
    · intro x hx
      simp only [List.mem_map] at hx
      obtain ⟨b, -, rfl⟩ := hx
      rfl

/-- Witness for C8 at `demoEM` (2 nodes, support 3): the row [3, 3] is a row
of the support matrix, has the right length, and all its entries equal the
global support. -/
theorem C8_witness :
    (get_kernel_supports demoEM).length = demoEM.n_nodes ∧
    [(3:ℚ), 3] ∈ get_kernel_supports demoEM ∧
    ([(3:ℚ), 3]).length = demoEM.n_nodes ∧
    ∀ x ∈ [(3:ℚ), 3], x = demoEM.disc.kernel_support := by
  have hm : [(3:ℚ), 3] ∈ get_kernel_supports demoEM := by
    simp [get_kernel_supports, demoEM, List.range_succ]
  exact ⟨(C8_supports_uniform demoEM).1, hm,
    ((C8_supports_uniform demoEM).2 _ hm).1,
    ((C8_supports_uniform demoEM).2 _ hm).2⟩

/-- C4: for a consistent positive discretization, the invariant
step = support / size holds after configuration and after every single-field
mutation; the exposed grid is the ordered sequence of size + 1 equally
spaced edges 0, step, 2·step, …, support; and re-setting any field to its
current value restores the exact same state (no drift across get/set
cycles). -/
theorem C4_disc_consistency (d : Discretization) (hinv : DiscInv d)
    (hs : 0 < d.kernel_support) (hn : 0 < d.kernel_size) :
    (∀ s : ℚ, ∀ n : ℕ, DiscInv (mkDiscretization s n)) ∧
    (∀ s : ℚ, DiscInv (setKernelSupport d s)) ∧
    (∀ n : ℕ, DiscInv (setKernelSize d n)) ∧
    (∀ st : ℚ, DiscInv (setKernelDt d st)) ∧
    (kernel_discretization d).length = d.kernel_size + 1 ∧
    (∀ i, i ≤ d.kernel_size →
      (kernel_discretization d).getD i 0 = (i : ℚ) * d.kernel_dt) ∧
    (kernel_discretization d).getD 0 0 = 0 ∧
    (kernel_discretization d).getD d.kernel_size 0 = d.kernel_support ∧
    setKernelSupport d d.kernel_support = d ∧
    setKernelSize d d.kernel_size = d ∧
    setKernelDt d d.kernel_dt = d := by
  have hsz : (0:ℚ) < (d.kernel_size : ℚ) := by exact_mod_cast hn
  have hgrid : ∀ i, i ≤ d.kernel_size →
      (kernel_discretization d).getD i 0 = (i : ℚ) * d.kernel_dt := by
    intro i hi
    unfold kernel_discretization
    rw [List.getD_eq_getElem?_getD, List.getElem?_map,
      List.getElem?_range (Nat.lt_succ_of_le hi)]
    rfl
  have hdiv : d.kernel_support / d.kernel_dt = (d.kernel_size : ℚ) := by
    rw [hinv, div_div_cancel₀ (ne_of_gt hs)]
  have hinv' : d.kernel_dt = d.kernel_support / (d.kernel_size : ℚ) := hinv
  refine ⟨fun s n => rfl, fun s => rfl, fun n => rfl, fun st => rfl, ?_,
    hgrid, ?_, ?_, ?_, ?_, ?_⟩
  · simp [kernel_discretization]
  · rw [hgrid 0 (Nat.zero_le _)]
    simp
  · rw [hgrid d.kernel_size le_rfl, hinv,
      mul_div_cancel₀ _ (ne_of_gt hsz)]
  · apply Discretization.ext
    · rfl
    · rfl
    · show d.kernel_support / (d.kernel_size : ℚ) = d.kernel_dt
      exact hinv'.symm
  · apply Discretization.ext
    · rfl
    · rfl
    · show d.kernel_support / (d.kernel_size : ℚ) = d.kernel_dt
      exact hinv'.symm
  · have hceil : (⌈d.kernel_support / d.kernel_dt⌉).toNat = d.kernel_size := by
      rw [hdiv, Int.ceil_natCast, Int.toNat_natCast]
    apply Discretization.ext
    · rfl
    · exact hceil
    · show d.kernel_support /
        (((⌈d.kernel_support / d.kernel_dt⌉).toNat : ℕ) : ℚ) = d.kernel_dt
      rw [hceil]
      exact hinv'.symm

/-- Witness for C4 at the concrete discretization of
`test_hawkes_em_kernel_dt` (support 4, 10 bins, step 0.4): the invariant
holds, the last grid edge is the support, and re-setting each field to its
current value restores the exact same state. -/
theorem C4_witness :
    DiscInv disc0 ∧ (0:ℚ) < disc0.kernel_support ∧ 0 < disc0.kernel_size ∧
    (kernel_discretization disc0).getD disc0.kernel_size 0 =
      disc0.kernel_support ∧
    setKernelSupport disc0 disc0.kernel_support = disc0 ∧
    setKernelSize disc0 disc0.kernel_size = disc0 ∧
    setKernelDt disc0 disc0.kernel_dt = disc0 := by
  have h1 : DiscInv disc0 := by
    unfold DiscInv
    norm_num [disc0]
  have h2 : (0:ℚ) < disc0.kernel_support := by norm_num [disc0]
  have h3 : 0 < disc0.kernel_size := by norm_num [disc0]
  obtain ⟨-, -, -, -, -, -, -, hlast, hc1, hc2, hc3⟩ :=
    C4_disc_consistency disc0 h1 h2 h3
  exact ⟨h1, h2, h3, hlast, hc1, hc2, hc3⟩

/-- A key absent from all three entries of the variance reduction mapper has
no lookup result. -/
theorem vrLookup_eq_none (v : String) (h1 : v ≠ "last") (h2 : v ≠ "avg")
    (h3 : v ≠ "rand") : vrLookup v = none := by
  have e1 : ("last" == v) = false :=
    beq_eq_false_iff_ne.mpr (fun h => h1 h.symm)
  have e2 : ("avg" == v) = false :=
    beq_eq_false_iff_ne.mpr (fun h => h2 h.symm)
  have e3 : ("rand" == v) = false :=
    beq_eq_false_iff_ne.mpr (fun h => h3 h.symm)
  simp [vrLookup, variance_reduction_methods_mapper, e1, e2, e3]

/-- A key absent from both entries of the delayed updates mapper has no
lookup result. -/
theorem duLookup_eq_none (v : String) (h1 : v ≠ "exact")
    (h2 : v ≠ "proba") : duLookup v = none := by
  have e1 : ("exact" == v) = false :=
    beq_eq_false_iff_ne.mpr (fun h => h1 h.symm)
  have e2 : ("proba" == v) = false :=
    beq_eq_false_iff_ne.mpr (fun h => h2 h.symm)
  simp [duLookup, delayed_updates_methods_mapper, e1, e2]

/-- C9 counterexample: on a solver already holding a sparse model, assigning
variance_reduction = "avg" raises even though "avg" is a mapper key, so
"raises iff the key is unknown" fails at this concrete input. -/
theorem C9_counterexample :
    ¬(isError (set_variance_reduction sparseSolver "avg") = true ↔
      vrLookup "avg" = none) := by
  decide

/-- C9 (amended): assigning variance_reduction = v raises ValueError iff v is
not one of "last", "avg", "rand" or v = "avg" while a sparse model is set;
assigning delayed_updates = v raises iff v is not one of "exact", "proba";
for a valid v with no sparse-model conflict the assignment succeeds and a
subsequent read of the property returns v. -/
theorem C9_policy_set_get (s : SVRG) (v : String) :
    (isError (set_variance_reduction s v) = true ↔
      vrLookup v = none ∨
        (v = "avg" ∧ ∃ m, s.model = some m ∧ m.is_sparse = true)) ∧
    (isError (set_delayed_updates s v) = true ↔ duLookup v = none) ∧
    (∀ c, vrLookup v = some c →
      ¬(v = "avg" ∧ ∃ m, s.model = some m ∧ m.is_sparse = true) →
      ∃ s2, set_variance_reduction s v = Except.ok s2 ∧
        get_variance_reduction s2 = some v) ∧
    (∀ c, duLookup v = some c →
      ∃ s2, set_delayed_updates s v = Except.ok s2 ∧
        get_delayed_updates s2 = some v) := by
  obtain ⟨mo, vr0, du0⟩ := s
  refine ⟨?_, ?_, ?_, ?_⟩
  · by_cases h1 : v = "last"
    · subst h1
      rcases mo with _ | m
      · simp [set_variance_reduction, vrLookup,
          variance_reduction_methods_mapper, isError]
      · simp [set_variance_reduction, vrLookup,
          variance_reduction_methods_mapper, isError]
    · by_cases h2 : v = "avg"
      · subst h2
        rcases mo with _ | m
        · simp [set_variance_reduction, vrLookup,
            variance_reduction_methods_mapper, isError]
        · rcases m with ⟨sp⟩
          cases sp
          · simp [set_variance_reduction, vrLookup,
              variance_reduction_methods_mapper, isError]
          · simp [set_variance_reduction, vrLookup,
              variance_reduction_methods_mapper, isError]
      · by_cases h3 : v = "rand"
        · subst h3
          rcases mo with _ | m
          · simp [set_variance_reduction, vrLookup,
              variance_reduction_methods_mapper, isError]
          · simp [set_variance_reduction, vrLookup,
              variance_reduction_methods_mapper, isError]
        · have hnone : vrLookup v = none := vrLookup_eq_none v h1 h2 h3
          simp [set_variance_reduction, hnone, isError, h2]
  · by_cases h1 : v = "exact"
    · subst h1
      simp [set_delayed_updates, duLookup, delayed_updates_methods_mapper,
        isError]
    · by_cases h2 : v = "proba"
      · subst h2
        simp [set_delayed_updates, duLookup, delayed_updates_methods_mapper,
          isError]
      · have hnone : duLookup v = none := duLookup_eq_none v h1 h2
        simp [set_delayed_updates, hnone, isError]
  · intro c hc hnc
    by_cases h1 : v = "last"
    · subst h1
      rcases mo with _ | m
      · exact ⟨⟨none, VarianceReductionMethod.Last, du0⟩, rfl, rfl⟩
      · exact ⟨⟨some m, VarianceReductionMethod.Last, du0⟩, rfl, rfl⟩
    · by_cases h2 : v = "avg"
      · subst h2
        rcases mo with _ | m
        · exact ⟨⟨none, VarianceReductionMethod.Average, du0⟩, rfl, rfl⟩
        · rcases m with ⟨sp⟩
          cases sp
          · exact ⟨⟨some ⟨false⟩, VarianceReductionMethod.Average, du0⟩,
              rfl, rfl⟩
          · exact (hnc ⟨rfl, ⟨⟨true⟩, rfl, rfl⟩⟩).elim
      · by_cases h3 : v = "rand"
        · subst h3
          rcases mo with _ | m
          · exact ⟨⟨none, VarianceReductionMethod.Random, du0⟩, rfl, rfl⟩
          · exact ⟨⟨some m, VarianceReductionMethod.Random, du0⟩, rfl, rfl⟩
        · rw [vrLookup_eq_none v h1 h2 h3] at hc
          cases hc
  · intro c hc
    by_cases h1 : v = "exact"
    · subst h1
      exact ⟨⟨mo, vr0, DelayedUpdatesMethod.Exact⟩, rfl, rfl⟩
    · by_cases h2 : v = "proba"
      · subst h2
        exact ⟨⟨mo, vr0, DelayedUpdatesMethod.Proba⟩, rfl, rfl⟩
      · rw [duLookup_eq_none v h1 h2] at hc
        cases hc

/-- Witness for C9 at a fresh solver and the valid key "rand": the lookup
succeeds, the assignment succeeds, and reading the property back returns
"rand". -/
theorem C9_witness :
    vrLookup "rand" = some VarianceReductionMethod.Random ∧
    ∃ s2, set_variance_reduction freshSolver "rand" = Except.ok s2 ∧
      get_variance_reduction s2 = some "rand" := by
  refine ⟨rfl, ?_⟩
  exact (C9_policy_set_get freshSolver "rand").2.2.1
    VarianceReductionMethod.Random rfl (fun hx => absurd hx.1 (by decide))

/-- C10: set_model raises ValueError when the current variance reduction
policy reads "avg" and the supplied model is sparse, installing nothing;
otherwise it installs the model and returns the solver; symmetrically,
assigning variance_reduction = "avg" raises when a sparse model is already
set. -/
theorem C10_set_model_sparse_guard (s : SVRG) (m : ModelInfo) :
    (get_variance_reduction s = some "avg" → m.is_sparse = true →
      isError (set_model s m) = true) ∧
    (¬(get_variance_reduction s = some "avg" ∧ m.is_sparse = true) →
      set_model s m = Except.ok { s with model := some m }) ∧
    (∀ m0, s.model = some m0 → m0.is_sparse = true →
      isError (set_variance_reduction s "avg") = true) := by
  refine ⟨?_, ?_, ?_⟩
  · intro h1 h2
    unfold set_model
    rw [if_pos ⟨h1, h2⟩]
    rfl
  · intro h
    unfold set_model
    rw [if_neg h]
  · intro m0 hm0 hsp
    obtain ⟨mo, vr0, du0⟩ := s
    simp only at hm0
    subst hm0
    simp [set_variance_reduction, vrLookup,
      variance_reduction_methods_mapper, isError, hsp]

/-- Witness for C10: with policy "avg" a sparse model is refused, a dense
model is installed; with a sparse model already set, assigning "avg"
raises. -/
theorem C10_witness :
    get_variance_reduction avgSolver = some "avg" ∧
    isError (set_model avgSolver ⟨true⟩) = true ∧
    set_model avgSolver ⟨false⟩ =
      Except.ok { avgSolver with model := some ⟨false⟩ } ∧
    sparseSolver.model = some ⟨true⟩ ∧
    isError (set_variance_reduction sparseSolver "avg") = true := by
  refine ⟨rfl, ?_, ?_, rfl, ?_⟩
  · exact (C10_set_model_sparse_guard avgSolver ⟨true⟩).1 rfl rfl
  · exact (C10_set_model_sparse_guard avgSolver ⟨false⟩).2.1
      (fun hx => absurd hx.2 (by decide))
  · exact (C10_set_model_sparse_guard sparseSolver ⟨true⟩).2.2 ⟨true⟩ rfl rfl
